import Mathlib

/-!
Verification development for `scripts/init-devcontainer.py` of the
diamonds-devcontainer repository.

The script is embedded shallowly over `List Char`:

* `load_env_file` / `processLine` embed the `.env` parser (strip, skip
  blank and `#` lines, split on the first `=`, strip one layer of
  matching surrounding quotes, last write wins via `dict_get`);
* `replaceAll` embeds Python's `str.replace` (replace all occurrences,
  scanning left to right, non-overlapping);
* `validateIdentifier` embeds
  `name.replace('_','').replace('-','').isalnum()`, with `str.isalnum`
  modelled for the ASCII range (`pyIsAlnum`);
* `generate_devcontainer`, `verify_generated_config` and `main` embed the
  control flow, with JSON parsing (`json.loads`) treated as an abstract
  parser `parse : List Char → Option J` and the top-level keys of a parsed
  document given by an abstract `keysOf : J → List (List Char)`;
* `sys.exit(1)` is modelled as `Except.error 1`; a normal return of `main`
  is `Except.ok` and corresponds to exit code 0 (`exitCodeOf`).
-/

/-- ASCII whitespace recognised by Python's `str.strip()`. -/
def isPySpace (c : Char) : Bool :=
  c == ' ' || c == '\t' || c == '\n' || c == '\r' || c == '\x0b' || c == '\x0c'

/-- Python `str.strip()`: drop leading and trailing whitespace. -/
def strip (s : List Char) : List Char :=
  ((s.dropWhile isPySpace).reverse.dropWhile isPySpace).reverse

/-- Python `line.split('=', 1)`: the parts before and after the first `=`.
Only used when `'=' ∈ line`. -/
def splitFirstEq (s : List Char) : List Char × List Char :=
  (s.takeWhile (fun c => !(c == '=')), (s.dropWhile (fun c => !(c == '='))).tail)

/-- The quote-stripping step of `load_env_file`:
`value[1:-1]` when the value starts and ends with `"`, else when it starts
and ends with `'`; otherwise the value is kept verbatim. -/
def stripQuotes (v : List Char) : List Char :=
  if v.head? = some '"' ∧ v.getLast? = some '"' then (v.drop 1).dropLast
  else if v.head? = some '\'' ∧ v.getLast? = some '\'' then (v.drop 1).dropLast
  else v

/-- The environment mapping built by `load_env_file`, as the list of
`env_vars[key] = value` assignments in file order. -/
abbrev EnvDict : Type := List (List Char × List Char)

/-- Lookup in the assignment list with Python-`dict` semantics: the last
assignment to a key wins. -/
def dict_get (d : EnvDict) (k : List Char) : Option (List Char) :=
  match d with
  | [] => none
  | (k', v) :: rest =>
    match dict_get rest k with
    | some v' => some v'
    | none => if k' = k then some v else none

/-- The parsed key/value a single `.env` line contributes, if any: the line
is stripped; blank lines, comment lines and lines without `=` contribute
nothing; otherwise the part before the first `=` (stripped) is the key and
the part after it (stripped, one layer of quotes removed) is the value. -/
def parsedKV (line : List Char) : Option (List Char × List Char) :=
  let l := strip line
  if l = [] then none
  else if l.head? = some '#' then none
  else if '=' ∈ l then
    let kv := splitFirstEq l
    some (strip kv.1, stripQuotes (strip kv.2))
  else none

/-- One iteration of the line loop of `load_env_file`. -/
def processLine (d : EnvDict) (line : List Char) : EnvDict :=
  match parsedKV line with
  | some (k, v) => d ++ [(k, v)]
  | none => d

/-- The whole line loop of `load_env_file` over the file's lines. -/
def parseEnvLines (lines : List (List Char)) : EnvDict :=
  lines.foldl processLine []

/-- The lines of the default `.env` content written by
`create_default_env`. -/
def default_env_lines : List (List Char) :=
  [ "# Diamonds DevContainer Configuration".toList
  , "# Generated automatically - customize as needed".toList
  , "".toList
  , "# Project Identity".toList
  , "WORKSPACE_NAME=diamonds_project".toList
  , "DIAMOND_NAME=ExampleDiamond".toList
  , "".toList
  , "# Vault Configuration".toList
  , "VAULT_COMMAND=server -dev -dev-root-token-id=root -dev-listen-address=0.0.0.0:8200".toList
  , "VAULT_PORT=8200".toList
  , "".toList
  , "# Port Mappings".toList
  , "HARDHAT_PORT=8545".toList
  , "ADDITIONAL_BLOCKCHAIN_PORT=8556".toList
  , "FRONTEND_PORT=3001".toList
  , "API_PORT=5001".toList
  , "DOC_PORT=8081".toList ]

/-- `load_env_file`: when the `.env` file is absent, `create_default_env`
first writes the default content and the loader then parses exactly those
lines.  The first component records the content written to the `.env`
path (if any), the second the resulting mapping. -/
def load_env_file (envExists : Bool) (envLines : List (List Char)) :
    Option (List (List Char)) × EnvDict :=
  if envExists then (none, parseEnvLines envLines)
  else (some default_env_lines, parseEnvLines default_env_lines)

/-- The placeholder token `__WORKSPACE_NAME__`. -/
def WORKSPACE_TOKEN : List Char :=
  ['_', '_', 'W', 'O', 'R', 'K', 'S', 'P', 'A', 'C', 'E', '_', 'N', 'A', 'M', 'E', '_', '_']

/-- The placeholder token `__DIAMOND_NAME__`. -/
def DIAMOND_TOKEN : List Char :=
  ['_', '_', 'D', 'I', 'A', 'M', 'O', 'N', 'D', '_', 'N', 'A', 'M', 'E', '_', '_']

/-- Decidable prefix test on character lists (Python's implicit substring
match at the current scan position). -/
def isPre : List Char → List Char → Bool
  | [], _ => true
  | _ :: _, [] => false
  | a :: as, b :: bs => a == b && isPre as bs

/-- Fuel-driven worker for `replaceAll`; fuel `≥ length` of the input makes
it total, and every scan step consumes at least one character. -/
def replaceAllAux (p v : List Char) : Nat → List Char → List Char
  | _, [] => []
  | 0, s => s
  | fuel + 1, c :: rest =>
    if isPre p (c :: rest) then
      v ++ replaceAllAux p v fuel (rest.drop (p.length - 1))
    else
      c :: replaceAllAux p v fuel rest

/-- Python `s.replace(p, v)`: replace every occurrence of `p` in `s` by
`v`, scanning left to right, non-overlapping. -/
def replaceAll (s p v : List Char) : List Char :=
  replaceAllAux p v s.length s

/-- Whether `p` occurs as a contiguous substring of `s`. -/
def containsTok (p : List Char) : List Char → Bool
  | [] => p.isEmpty
  | c :: rest => isPre p (c :: rest) || containsTok p rest

/-- Python `str.isalnum` on a single character, modelled for the ASCII
range (the script's identifiers are ASCII). -/
def pyIsAlnum (c : Char) : Bool :=
  c.isAlpha || c.isDigit

/-- A character of the documented identifier class `[A-Za-z0-9_-]`. -/
def isIdentChar (c : Char) : Bool :=
  pyIsAlnum c || c == '_' || c == '-'

/-- The workspace-name gate of `generate_devcontainer`:
`workspace_name.replace('_', '').replace('-', '').isalnum()`.
Python's `str.isalnum` is true iff the string is non-empty and all of its
characters are alphanumeric. -/
def validateIdentifier (s : List Char) : Bool :=
  let stripped := (s.filter fun c => !(c == '_')).filter fun c => !(c == '-')
  !stripped.isEmpty && stripped.all pyIsAlnum

/-- `env_vars.get('WORKSPACE_NAME', 'diamonds_project')`. -/
def workspace_name (env : EnvDict) : List Char :=
  (dict_get env "WORKSPACE_NAME".toList).getD "diamonds_project".toList

/-- `env_vars.get('DIAMOND_NAME', 'ExampleDiamond')`. -/
def diamond_name (env : EnvDict) : List Char :=
  (dict_get env "DIAMOND_NAME".toList).getD "ExampleDiamond".toList

/-- The substitution step of `generate_devcontainer`:
`template.replace('__WORKSPACE_NAME__', workspace_name)` followed by
`.replace('__DIAMOND_NAME__', diamond_name)`. -/
def render (template : List Char) (env : EnvDict) : List Char :=
  replaceAll (replaceAll template WORKSPACE_TOKEN (workspace_name env))
    DIAMOND_TOKEN (diamond_name env)

/-- `generate_devcontainer`: validate the workspace name, require the
template file, render, validate the result as JSON (abstract parser
`parse`, standing for `json.loads`), and on success write the rendered
text.  `Except.error 1` stands for `sys.exit(1)`; `Except.ok out` stands
for a normal return having written `out` to the output path. -/
def generate_devcontainer {J : Type} (parse : List Char → Option J)
    (templateExists : Bool) (template : List Char) (env : EnvDict) :
    Except Nat (List Char) :=
  if validateIdentifier (workspace_name env) = false then .error 1
  else if templateExists = false then .error 1
  else
    match parse (render template env) with
    | none => .error 1
    | some _ => .ok (render template env)

/-- The content of the output file after `generate_devcontainer` ran,
given its content `prev` before the run: overwritten on success, untouched
on any abort. -/
def fileAfterGenerate {J : Type} (parse : List Char → Option J)
    (prev : Option (List Char)) (templateExists : Bool)
    (template : List Char) (env : EnvDict) : Option (List Char) :=
  match generate_devcontainer parse templateExists template env with
  | .ok out => some out
  | .error _ => prev

/-- The required top-level keys checked by `verify_generated_config`. -/
def required_fields : List (List Char) :=
  ["name".toList, "dockerComposeFile".toList, "service".toList, "workspaceFolder".toList]

/-- `verify_generated_config`: re-read the generated file (`none` stands
for an unreadable file, which the `except` branch turns into `False`),
re-parse it, and check that every required top-level key is present. -/
def verify_generated_config {J : Type} (parse : List Char → Option J)
    (keysOf : J → List (List Char)) (fileContent : Option (List Char)) : Bool :=
  match fileContent with
  | none => false
  | some content =>
    match parse content with
    | none => false
    | some config => required_fields.all fun f => decide (f ∈ keysOf config)

/-- The script's `main`: load the environment, generate the output file,
verify it.  The verification result only selects the warning message; the
process still returns normally (exit code 0) either way. -/
def script_main {J : Type} (parse : List Char → Option J)
    (keysOf : J → List (List Char)) (envExists : Bool)
    (envLines : List (List Char)) (templateExists : Bool)
    (template : List Char) : Except Nat Bool :=
  let env := (load_env_file envExists envLines).2
  match generate_devcontainer parse templateExists template env with
  | .error n => .error n
  | .ok out => .ok (verify_generated_config parse keysOf (some out))

/-- The process exit code of a run of `main`. -/
def exitCodeOf (r : Except Nat Bool) : Nat :=
  match r with
  | .error n => n
  | .ok _ => 0

/-- A string with no underscore character. -/
def noUnderscore (s : List Char) : Prop :=
  ∀ c ∈ s, c ≠ '_'

instance (s : List Char) : Decidable (noUnderscore s) :=
  List.decidableBAll _ s

/-! ### Basic lemmas about the scanner `replaceAllAux` -/

theorem replaceAllAux_nil (p v : List Char) (f : Nat) :
    replaceAllAux p v f [] = [] := by
  cases f <;> rfl

theorem replaceAllAux_cons (p v : List Char) (f : Nat) (c : Char) (rest : List Char) :
    replaceAllAux p v (f + 1) (c :: rest) =
      if isPre p (c :: rest) then
        v ++ replaceAllAux p v f (rest.drop (p.length - 1))
      else
        c :: replaceAllAux p v f rest := rfl

theorem replaceAllAux_irrel (p v : List Char) :
    ∀ n s f₁ f₂, s.length ≤ f₁ → s.length ≤ f₂ → s.length ≤ n →
      replaceAllAux p v f₁ s = replaceAllAux p v f₂ s := by
  intro n
  induction n with
  | zero =>
    intro s f₁ f₂ _ _ hn
    have hs : s = [] := List.length_eq_zero.mp (Nat.le_zero.mp hn)
    subst hs
    rw [replaceAllAux_nil, replaceAllAux_nil]
  | succ k ih =>
    intro s f₁ f₂ h1 h2 hn
    cases s with
    | nil => rw [replaceAllAux_nil, replaceAllAux_nil]
    | cons c rest =>
      simp only [List.length_cons] at h1 h2 hn
      cases f₁ with
      | zero => omega
      | succ g₁ =>
        cases f₂ with
        | zero => omega
        | succ g₂ =>
          rw [replaceAllAux_cons, replaceAllAux_cons]
          by_cases h : isPre p (c :: rest) = true
          · simp only [h, if_true]
            have hd : (rest.drop (p.length - 1)).length ≤ rest.length := by
              simp [List.length_drop]
            exact congrArg (v ++ ·) (ih _ g₁ g₂ (by omega) (by omega) (by omega))
          · simp only [h, if_false, Bool.false_eq_true]
            exact congrArg (c :: ·) (ih _ g₁ g₂ (by omega) (by omega) (by omega))

theorem replaceAllAux_eq_replaceAll (p v s : List Char) (f : Nat) (h : s.length ≤ f) :
    replaceAllAux p v f s = replaceAll s p v :=
  replaceAllAux_irrel p v s.length s f s.length h le_rfl le_rfl

theorem replaceAll_nil (p v : List Char) : replaceAll [] p v = [] := rfl

theorem replaceAll_cons_nomatch {p : List Char} {c : Char} {rest : List Char}
    (v : List Char) (h : isPre p (c :: rest) = false) :
    replaceAll (c :: rest) p v = c :: replaceAll rest p v := by
  show replaceAllAux p v (rest.length + 1) (c :: rest) = _
  rw [replaceAllAux_cons, if_neg (by simp [h])]
  rfl

theorem isPre_append_self (p t : List Char) : isPre p (p ++ t) = true := by
  induction p with
  | nil => rfl
  | cons a as ih => simp [isPre, ih]

theorem replaceAll_append_match {p : List Char} (hp : p ≠ []) (s v : List Char) :
    replaceAll (p ++ s) p v = v ++ replaceAll s p v := by
  cases p with
  | nil => exact absurd rfl hp
  | cons a as =>
    show replaceAllAux (a :: as) v ((a :: as ++ s).length) (a :: as ++ s) = _
    rw [List.cons_append, List.length_cons, replaceAllAux_cons,
      if_pos (by simpa using isPre_append_self (a :: as) s)]
    have hd : (as ++ s).drop ((a :: as).length - 1) = s := by
      simp only [List.length_cons, Nat.add_sub_cancel]
      exact List.drop_left as s
    rw [hd]
    exact congrArg (v ++ ·)
      (replaceAllAux_eq_replaceAll (a :: as) v s _
        (by simp only [List.length_append]; omega))

/-! ### Prefix and occurrence lemmas -/

theorem isPre_iff {p s : List Char} : isPre p s = true ↔ p <+: s := by
  induction p generalizing s with
  | nil => simp [isPre]
  | cons a as ih =>
    cases s with
    | nil => simp [isPre]
    | cons b bs => simp [isPre, ih, List.cons_prefix_cons]

theorem replaceAll_append_clean {p : List Char} (hp : p.head? = some '_')
    {A : List Char} (hA : noUnderscore A) (s v : List Char) :
    replaceAll (A ++ s) p v = A ++ replaceAll s p v := by
  induction A with
  | nil => simp
  | cons a A' ih =>
    have ha : a ≠ '_' := hA a (List.mem_cons_self a A')
    have hfalse : isPre p (a :: (A' ++ s)) = false := by
      cases p with
      | nil => simp at hp
      | cons q qs =>
        have hq : q = '_' := by simpa [List.head?] using hp
        subst hq
        have : ('_' == a) = false := beq_eq_false_iff_ne.mpr (Ne.symm ha)
        simp [isPre, this]
    rw [List.cons_append, replaceAll_cons_nomatch v hfalse,
      ih (fun c hc => hA c (List.mem_cons_of_mem a hc))]
    simp

theorem replaceAll_clean {p : List Char} (hp : p.head? = some '_')
    {s : List Char} (hs : noUnderscore s) (v : List Char) :
    replaceAll s p v = s := by
  have h := replaceAll_append_clean hp hs [] v
  simpa [replaceAll_nil] using h

theorem containsTok_eq_false_of_clean {p s : List Char} (hp : '_' ∈ p)
    (hs : noUnderscore s) : containsTok p s = false := by
  induction s with
  | nil =>
    cases p with
    | nil => simp at hp
    | cons q qs => rfl
  | cons c rest ih =>
    simp only [containsTok, Bool.or_eq_false_iff]
    refine ⟨?_, ih fun c' hc' => hs c' (List.mem_cons_of_mem _ hc')⟩
    cases h : isPre p (c :: rest) with
    | false => rfl
    | true => exact (hs '_' ((isPre_iff.mp h).sublist.subset hp) rfl).elim

theorem isPre_getElem? {p s : List Char} (h : isPre p s = true) {i : Nat}
    (hi : i < p.length) : s[i]? = p[i]? := by
  obtain ⟨t, rfl⟩ := isPre_iff.mp h
  exact List.getElem?_append_left hi

theorem isPre_false_at {p s : List Char} (i : Nat) (hi : i < p.length)
    (hne : p[i]? ≠ s[i]?) : isPre p s = false := by
  cases h : isPre p s with
  | false => rfl
  | true => exact absurd (isPre_getElem? h hi).symm hne

theorem isPre_false_of_ends {p s C : List Char} (h1 : s.length ≤ p.length)
    (h2 : '_' ∈ p.drop s.length) (hC : noUnderscore C) :
    isPre p (s ++ C) = false := by
  cases h : isPre p (s ++ C) with
  | false => rfl
  | true =>
    exfalso
    obtain ⟨t, ht⟩ := isPre_iff.mp h
    have hp : p.take s.length ++ (p.drop s.length ++ t) = s ++ C := by
      rw [← List.append_assoc, List.take_append_drop]; exact ht
    have hlen : (p.take s.length).length = s.length := by
      simp [List.length_take]; omega
    obtain ⟨-, h2'⟩ := List.append_inj hp hlen
    exact hC '_' (h2' ▸ List.mem_append_left _ h2) rfl

theorem replaceAll_append_nomatch {p v C : List Char} :
    ∀ s : List Char, (∀ i, i < s.length → isPre p (s.drop i ++ C) = false) →
      replaceAll (s ++ C) p v = s ++ replaceAll C p v := by
  intro s
  induction s with
  | nil => simp
  | cons c s' ih =>
    intro h
    have h0 : isPre p (c :: (s' ++ C)) = false := by
      simpa using h 0 (by simp)
    rw [List.cons_append, replaceAll_cons_nomatch v h0,
      ih fun i hi => by simpa using h (i + 1) (by simp; omega)]
    simp

theorem replaceAll_diamond_scan {C w : List Char} (hC : noUnderscore C) :
    replaceAll (DIAMOND_TOKEN ++ C) WORKSPACE_TOKEN w
      = DIAMOND_TOKEN ++ replaceAll C WORKSPACE_TOKEN w := by
  apply replaceAll_append_nomatch
  intro i hi
  have hi' : i < 16 := by simpa [DIAMOND_TOKEN] using hi
  interval_cases i <;> exact isPre_false_of_ends (by decide) (by decide) hC

theorem noUnderscore_append {x y : List Char} (hx : noUnderscore x)
    (hy : noUnderscore y) : noUnderscore (x ++ y) := by
  intro c hc
  rcases List.mem_append.mp hc with h | h
  · exact hx c h
  · exact hy c h

theorem render_clean_template (env : EnvDict) (A B C : List Char)
    (hA : noUnderscore A) (hB : noUnderscore B) (hC : noUnderscore C)
    (hw : noUnderscore (workspace_name env)) :
    render (A ++ (WORKSPACE_TOKEN ++ (B ++ (DIAMOND_TOKEN ++ C)))) env
      = A ++ (workspace_name env ++ (B ++ (diamond_name env ++ C))) := by
  have h1 : replaceAll (A ++ (WORKSPACE_TOKEN ++ (B ++ (DIAMOND_TOKEN ++ C))))
      WORKSPACE_TOKEN (workspace_name env)
      = A ++ (workspace_name env ++ (B ++ (DIAMOND_TOKEN ++ C))) := by
    rw [replaceAll_append_clean (p := WORKSPACE_TOKEN) (by decide) hA,
      replaceAll_append_match (by decide),
      replaceAll_append_clean (p := WORKSPACE_TOKEN) (by decide) hB,
      replaceAll_diamond_scan hC,
      replaceAll_clean (p := WORKSPACE_TOKEN) (by decide) hC]
  have hAwB : noUnderscore (A ++ (workspace_name env ++ B)) :=
    noUnderscore_append hA (noUnderscore_append hw hB)
  have h2 : replaceAll (A ++ (workspace_name env ++ (B ++ (DIAMOND_TOKEN ++ C))))
      DIAMOND_TOKEN (diamond_name env)
      = A ++ (workspace_name env ++ (B ++ (diamond_name env ++ C))) := by
    have hre : A ++ (workspace_name env ++ (B ++ (DIAMOND_TOKEN ++ C)))
        = (A ++ (workspace_name env ++ B)) ++ (DIAMOND_TOKEN ++ C) := by
      simp [List.append_assoc]
    rw [hre, replaceAll_append_clean (p := DIAMOND_TOKEN) (by decide) hAwB,
      replaceAll_append_match (by decide),
      replaceAll_clean (p := DIAMOND_TOKEN) (by decide) hC]
    simp [List.append_assoc]
  show replaceAll (replaceAll _ WORKSPACE_TOKEN (workspace_name env))
      DIAMOND_TOKEN (diamond_name env) = _
  rw [h1, h2]

/-- C1 (amended): for a template of the form `A ++ __WORKSPACE_NAME__ ++ B
++ __DIAMOND_NAME__ ++ C` whose surrounding pieces `A`, `B`, `C` contain
no underscore, and substituted values containing no underscore, the
rendered output is exactly the template with the two tokens replaced by
the corresponding values, and it contains zero occurrences of either
placeholder token. -/
theorem render_clean_template_spec (env : EnvDict) (A B C : List Char)
    (hA : noUnderscore A) (hB : noUnderscore B) (hC : noUnderscore C)
    (hw : noUnderscore (workspace_name env))
    (hd : noUnderscore (diamond_name env)) :
    render (A ++ (WORKSPACE_TOKEN ++ (B ++ (DIAMOND_TOKEN ++ C)))) env
      = A ++ (workspace_name env ++ (B ++ (diamond_name env ++ C))) ∧
    containsTok WORKSPACE_TOKEN
      (render (A ++ (WORKSPACE_TOKEN ++ (B ++ (DIAMOND_TOKEN ++ C)))) env) = false ∧
    containsTok DIAMOND_TOKEN
      (render (A ++ (WORKSPACE_TOKEN ++ (B ++ (DIAMOND_TOKEN ++ C)))) env) = false := by
  have heq := render_clean_template env A B C hA hB hC hw
  have hclean : noUnderscore
      (A ++ (workspace_name env ++ (B ++ (diamond_name env ++ C)))) :=
    noUnderscore_append hA (noUnderscore_append hw
      (noUnderscore_append hB (noUnderscore_append hd hC)))
  refine ⟨heq, ?_, ?_⟩
  · rw [heq]; exact containsTok_eq_false_of_clean (by decide) hclean
  · rw [heq]; exact containsTok_eq_false_of_clean (by decide) hclean

/-- C1 counterexample: with the template
`x=__WORKSPACE_NAME__ y=__DIAMOND_NAME__` (containing both placeholder
tokens) and the mapping `WORKSPACE_NAME=__WORKSPACE_NAME__`,
`DIAMOND_NAME=d1` (a workspace value that even passes the identifier
gate), the rendered output still contains the token
`__WORKSPACE_NAME__`, refuting the claim that the output contains zero
occurrences of either placeholder for every template and mapping. -/
theorem render_leaves_token_counterexample :
    containsTok WORKSPACE_TOKEN
      "x=__WORKSPACE_NAME__ y=__DIAMOND_NAME__".toList = true ∧
    containsTok DIAMOND_TOKEN
      "x=__WORKSPACE_NAME__ y=__DIAMOND_NAME__".toList = true ∧
    validateIdentifier (workspace_name
      [("WORKSPACE_NAME".toList, "__WORKSPACE_NAME__".toList),
       ("DIAMOND_NAME".toList, "d1".toList)]) = true ∧
    containsTok WORKSPACE_TOKEN
      (render "x=__WORKSPACE_NAME__ y=__DIAMOND_NAME__".toList
        [("WORKSPACE_NAME".toList, "__WORKSPACE_NAME__".toList),
         ("DIAMOND_NAME".toList, "d1".toList)]) = true := by
  decide

/-- Witness for the amended C1 at a concrete template and mapping. -/
theorem render_clean_template_spec_witness :
    noUnderscore "name: ".toList ∧
    (render ("name: ".toList ++ (WORKSPACE_TOKEN ++ (", d: ".toList ++
        (DIAMOND_TOKEN ++ " end".toList))))
        [("WORKSPACE_NAME".toList, "proj1".toList),
         ("DIAMOND_NAME".toList, "MyDiamond".toList)]
      = "name: ".toList ++ ("proj1".toList ++ (", d: ".toList ++
        ("MyDiamond".toList ++ " end".toList))) ∧
    containsTok WORKSPACE_TOKEN
      (render ("name: ".toList ++ (WORKSPACE_TOKEN ++ (", d: ".toList ++
        (DIAMOND_TOKEN ++ " end".toList))))
        [("WORKSPACE_NAME".toList, "proj1".toList),
         ("DIAMOND_NAME".toList, "MyDiamond".toList)]) = false ∧
    containsTok DIAMOND_TOKEN
      (render ("name: ".toList ++ (WORKSPACE_TOKEN ++ (", d: ".toList ++
        (DIAMOND_TOKEN ++ " end".toList))))
        [("WORKSPACE_NAME".toList, "proj1".toList),
         ("DIAMOND_NAME".toList, "MyDiamond".toList)]) = false) :=
  ⟨by decide,
   render_clean_template_spec
     [("WORKSPACE_NAME".toList, "proj1".toList),
      ("DIAMOND_NAME".toList, "MyDiamond".toList)]
     "name: ".toList ", d: ".toList " end".toList
     (by decide) (by decide) (by decide) (by decide) (by decide)⟩

/-! ### The identifier gate -/

theorem mem_validateIdentifier_stripped {s : List Char} {c : Char} :
    (c ∈ (s.filter fun c => !(c == '_')).filter fun c => !(c == '-')) ↔
      c ∈ s ∧ c ≠ '_' ∧ c ≠ '-' := by
  simp only [List.mem_filter, Bool.not_eq_true', beq_eq_false_iff_ne, and_assoc]

/-- C2 (amended): `validateIdentifier` is true iff the value consists only
of characters of the class `[A-Za-z0-9_-]` and contains at least one
letter or digit; a value consisting solely of underscores and hyphens (or
empty) is rejected.  Whenever it is false on the workspace name,
`generate_devcontainer` aborts with exit code 1.  (The ASCII-range
hypothesis marks the region where `pyIsAlnum` models Python's
`str.isalnum` exactly.) -/
theorem validateIdentifier_spec :
    (∀ s : List Char, (∀ c ∈ s, c.toNat < 128) →
      (validateIdentifier s = true ↔
        ((∀ c ∈ s, isIdentChar c = true) ∧ ∃ c ∈ s, pyIsAlnum c = true))) ∧
    (∀ (J : Type) (parse : List Char → Option J) (templateExists : Bool)
        (template : List Char) (env : EnvDict),
      validateIdentifier (workspace_name env) = false →
      generate_devcontainer parse templateExists template env = .error 1) := by
  constructor
  · intro s _
    show (!(_ : List Char).isEmpty && _) = true ↔ _
    rw [Bool.and_eq_true, Bool.not_eq_true', List.isEmpty_eq_false_iff_exists_mem,
      List.all_eq_true]
    constructor
    · rintro ⟨⟨c0, hc0⟩, hall⟩
      obtain ⟨hc0s, -, -⟩ := mem_validateIdentifier_stripped.mp hc0
      refine ⟨?_, c0, hc0s, hall c0 hc0⟩
      intro c hcs
      by_cases h_ : c = '_'
      · subst h_; decide
      · by_cases hh : c = '-'
        · subst hh; decide
        · have hmem := mem_validateIdentifier_stripped.mpr ⟨hcs, h_, hh⟩
          have := hall c hmem
          simp [isIdentChar, this]
    · rintro ⟨hclass, c0, hc0s, halnum⟩
      have hc0u : c0 ≠ '_' := by
        intro h; rw [h] at halnum; exact absurd halnum (by decide)
      have hc0h : c0 ≠ '-' := by
        intro h; rw [h] at halnum; exact absurd halnum (by decide)
      refine ⟨⟨c0, mem_validateIdentifier_stripped.mpr ⟨hc0s, hc0u, hc0h⟩⟩, ?_⟩
      intro c hc
      obtain ⟨hcs, hu, hh⟩ := mem_validateIdentifier_stripped.mp hc
      have hcl := hclass c hcs
      have hu' : (c == '_') = false := beq_eq_false_iff_ne.mpr hu
      have hh' : (c == '-') = false := beq_eq_false_iff_ne.mpr hh
      simpa [isIdentChar, hu', hh'] using hcl
  · intro J parse templateExists template env h
    simp [generate_devcontainer, h]

/-- C2 counterexample: the value `_` consists only of characters of the
documented class `[A-Za-z0-9_-]`, yet `validateIdentifier` returns false
on it (Python's `''.isalnum()` is false), and the run aborts with exit
code 1 instead of proceeding — refuting the claimed
"true for every string over `[A-Za-z0-9_-]`" direction. -/
theorem validateIdentifier_underscore_counterexample :
    (∀ c ∈ "_".toList, isIdentChar c = true) ∧
    validateIdentifier "_".toList = false ∧
    generate_devcontainer (fun _ => some 0) true "t".toList
      [("WORKSPACE_NAME".toList, "_".toList)] = .error 1 :=
  ⟨by decide, by decide, rfl⟩

/-- Witness for the amended C2 at concrete values. -/
theorem validateIdentifier_spec_witness :
    validateIdentifier "ab1".toList = true ∧
    generate_devcontainer (fun _ => some 0) true "t".toList
      [("WORKSPACE_NAME".toList, "My Project!".toList)] = .error 1 :=
  ⟨(validateIdentifier_spec.1 "ab1".toList (by decide)).mpr
      ⟨by decide, 'a', by decide, by decide⟩,
   validateIdentifier_spec.2 Nat (fun _ => some 0) true "t".toList
      [("WORKSPACE_NAME".toList, "My Project!".toList)] (by decide)⟩

/-! ### Dictionary lemmas -/

theorem dict_get_append_single (d : EnvDict) (k k' v : List Char) :
    dict_get (d ++ [(k', v)]) k = if k' = k then some v else dict_get d k := by
  induction d with
  | nil => simp [dict_get]
  | cons kv rest ih =>
    obtain ⟨k₀, v₀⟩ := kv
    have step : dict_get ((k₀, v₀) :: (rest ++ [(k', v)])) k =
        match dict_get (rest ++ [(k', v)]) k with
        | some v' => some v'
        | none => if k₀ = k then some v₀ else none := rfl
    rw [List.cons_append, step, ih]
    by_cases h : k' = k
    · rw [if_pos h, if_pos h]
    · rw [if_neg h, if_neg h]
      rfl

/-! ### Control-flow claims -/

/-- C3: whenever the rendered text does not parse as JSON, the program
aborts with exit code 1 and nothing is written: the output file keeps its
previous content. -/
theorem generate_aborts_on_invalid_json (J : Type) (parse : List Char → Option J)
    (templateExists : Bool) (template : List Char) (env : EnvDict)
    (prev : Option (List Char))
    (h : parse (render template env) = none) :
    generate_devcontainer parse templateExists template env = .error 1 ∧
    fileAfterGenerate parse prev templateExists template env = prev := by
  have hg : generate_devcontainer parse templateExists template env = .error 1 := by
    unfold generate_devcontainer
    by_cases hv : validateIdentifier (workspace_name env) = false
    · simp [hv]
    · by_cases ht : templateExists = false
      · simp [hv, ht]
      · simp [hv, ht, h]
  exact ⟨hg, by simp [fileAfterGenerate, hg]⟩

/-- Witness for C3 at a concrete run whose parser rejects everything. -/
theorem generate_aborts_on_invalid_json_witness :
    generate_devcontainer (fun _ => (none : Option Nat)) true "x".toList [] = .error 1 ∧
    fileAfterGenerate (fun _ => (none : Option Nat)) (some "old".toList) true
      "x".toList [] = some "old".toList :=
  generate_aborts_on_invalid_json Nat (fun _ => none) true "x".toList []
    (some "old".toList) rfl

/-- C8: on a successful generation the file afterwards holds exactly the
text that was validated, so re-reading and re-parsing it yields the same
JSON object that was parsed before writing. -/
theorem write_reread_roundtrip (J : Type) (parse : List Char → Option J)
    (templateExists : Bool) (template : List Char) (env : EnvDict)
    (prev : Option (List Char)) (out : List Char)
    (h : generate_devcontainer parse templateExists template env = .ok out) :
    fileAfterGenerate parse prev templateExists template env = some out ∧
    ∃ j, parse (render template env) = some j ∧ parse out = some j := by
  have hout : out = render template env ∧
      ∃ j, parse (render template env) = some j := by
    unfold generate_devcontainer at h
    by_cases hv : validateIdentifier (workspace_name env) = false
    · simp [hv] at h
    · by_cases ht : templateExists = false
      · simp [hv, ht] at h
      · cases hp : parse (render template env) with
        | none => simp [hv, ht, hp] at h
        | some j =>
          rw [if_neg hv, if_neg ht, hp] at h
          exact ⟨(Except.ok.inj h).symm, j, rfl⟩
  obtain ⟨he, j, hj⟩ := hout
  exact ⟨by simp [fileAfterGenerate, h], j, hj, he ▸ hj⟩

/-- Witness for C8 at a concrete run whose parser accepts everything. -/
theorem write_reread_roundtrip_witness :
    fileAfterGenerate (fun _ => (some 0 : Option Nat)) none true "t".toList []
      = some "t".toList ∧
    ∃ j, (fun _ => (some 0 : Option Nat)) (render "t".toList []) = some j ∧
      (fun _ => (some 0 : Option Nat)) "t".toList = some j :=
  write_reread_roundtrip Nat (fun _ => some 0) true "t".toList [] none
    "t".toList rfl

/-- C10: only the workspace name is gated; for every diamond value the run
proceeds past validation, and it aborts exactly when the substituted
result fails to parse as JSON. -/
theorem diamond_not_gated_spec (J : Type) (parse : List Char → Option J)
    (template dv : List Char) (env : EnvDict)
    (h : validateIdentifier (workspace_name env) = true) :
    generate_devcontainer parse true template
        (env ++ [("DIAMOND_NAME".toList, dv)]) =
      (match parse (render template (env ++ [("DIAMOND_NAME".toList, dv)])) with
       | none => .error 1
       | some _ => .ok (render template (env ++ [("DIAMOND_NAME".toList, dv)]))) := by
  have hw : workspace_name (env ++ [("DIAMOND_NAME".toList, dv)])
      = workspace_name env := by
    unfold workspace_name
    rw [dict_get_append_single, if_neg (by decide)]
  unfold generate_devcontainer
  rw [hw, h]
  cases parse (render template (env ++ [("DIAMOND_NAME".toList, dv)])) <;> simp

/-- Witness for C10 at a concrete diamond value full of special characters. -/
theorem diamond_not_gated_spec_witness :
    generate_devcontainer (fun _ => (some 0 : Option Nat)) true "t".toList
        ([("WORKSPACE_NAME".toList, "proj".toList)] ++
          [("DIAMOND_NAME".toList, "a b!c".toList)]) =
      (match (fun _ => (some 0 : Option Nat)) (render "t".toList
          ([("WORKSPACE_NAME".toList, "proj".toList)] ++
            [("DIAMOND_NAME".toList, "a b!c".toList)])) with
       | none => .error 1
       | some _ => .ok (render "t".toList
          ([("WORKSPACE_NAME".toList, "proj".toList)] ++
            [("DIAMOND_NAME".toList, "a b!c".toList)]))) :=
  diamond_not_gated_spec Nat (fun _ => some 0) "t".toList "a b!c".toList
    [("WORKSPACE_NAME".toList, "proj".toList)] (by decide)

/-- C7: when the mapping lacks `WORKSPACE_NAME` (resp. `DIAMOND_NAME`),
the render step substitutes the fixed default literal `diamonds_project`
(resp. `ExampleDiamond`) for the corresponding placeholder token. -/
theorem render_default_fallback_spec :
    (∀ (env : EnvDict) (template : List Char),
      dict_get env "WORKSPACE_NAME".toList = none →
      render template env =
        replaceAll (replaceAll template WORKSPACE_TOKEN "diamonds_project".toList)
          DIAMOND_TOKEN (diamond_name env)) ∧
    (∀ (env : EnvDict) (template : List Char),
      dict_get env "DIAMOND_NAME".toList = none →
      render template env =
        replaceAll (replaceAll template WORKSPACE_TOKEN (workspace_name env))
          DIAMOND_TOKEN "ExampleDiamond".toList) := by
  constructor
  · intro env template h
    simp only [render, workspace_name]
    rw [h]
    rfl
  · intro env template h
    simp only [render, diamond_name]
    rw [h]
    rfl

/-- Witness for C7 on the empty mapping. -/
theorem render_default_fallback_spec_witness :
    render "x".toList [] =
      replaceAll (replaceAll "x".toList WORKSPACE_TOKEN "diamonds_project".toList)
        DIAMOND_TOKEN (diamond_name []) :=
  render_default_fallback_spec.1 [] "x".toList rfl

/-- C4: if the generated text parses but lacks one of the required
top-level keys, the verification step returns false and `main` still
terminates normally with exit code 0 (warning only). -/
theorem missing_required_field_warns_only (J : Type)
    (parse : List Char → Option J) (keysOf : J → List (List Char))
    (envExists : Bool) (envLines : List (List Char)) (template : List Char)
    (j : J) (f : List Char)
    (hv : validateIdentifier
      (workspace_name (load_env_file envExists envLines).2) = true)
    (hp : parse (render template (load_env_file envExists envLines).2) = some j)
    (hf : f ∈ required_fields) (hmem : f ∉ keysOf j) :
    verify_generated_config parse keysOf
      (some (render template (load_env_file envExists envLines).2)) = false ∧
    script_main parse keysOf envExists envLines true template = .ok false ∧
    exitCodeOf (script_main parse keysOf envExists envLines true template) = 0 := by
  have hver : verify_generated_config parse keysOf
      (some (render template (load_env_file envExists envLines).2)) = false := by
    simp only [verify_generated_config, hp]
    cases hall : required_fields.all fun f => decide (f ∈ keysOf j) with
    | false => rfl
    | true => exact absurd (of_decide_eq_true (List.all_eq_true.mp hall f hf)) hmem
  have hgen : generate_devcontainer parse true template
      (load_env_file envExists envLines).2
      = .ok (render template (load_env_file envExists envLines).2) := by
    unfold generate_devcontainer
    rw [hv, hp]
    simp
  have hmain : script_main parse keysOf envExists envLines true template
      = .ok false := by
    simp only [script_main]
    rw [hgen]
    exact congrArg Except.ok hver
  exact ⟨hver, hmain, by rw [hmain]; rfl⟩

/-- Witness for C4: a parser that returns an object with no keys at all. -/
theorem missing_required_field_warns_only_witness :
    verify_generated_config (fun _ => some ()) (fun _ => ([] : List (List Char)))
      (some (render "t".toList (load_env_file true []).2)) = false ∧
    script_main (fun _ => some ()) (fun _ => ([] : List (List Char)))
      true [] true "t".toList = .ok false ∧
    exitCodeOf (script_main (fun _ => some ()) (fun _ => ([] : List (List Char)))
      true [] true "t".toList) = 0 :=
  missing_required_field_warns_only Unit (fun _ => some ())
    (fun _ => ([] : List (List Char))) true [] "t".toList () "name".toList
    (by decide) rfl (by decide) (by decide)

/-- C6: when the `.env` file is absent, the default file written contains
the line `WORKSPACE_NAME=diamonds_project`, the loaded mapping maps
`WORKSPACE_NAME` to `diamonds_project` (and `DIAMOND_NAME` to
`ExampleDiamond`), and the subsequent render replaces
`__WORKSPACE_NAME__` with `diamonds_project`. -/
theorem absent_env_defaults_spec (envLines : List (List Char)) :
    (load_env_file false envLines).1 = some default_env_lines ∧
    "WORKSPACE_NAME=diamonds_project".toList ∈ default_env_lines ∧
    dict_get (load_env_file false envLines).2 "WORKSPACE_NAME".toList =
      some "diamonds_project".toList ∧
    ∀ template : List Char,
      render template (load_env_file false envLines).2 =
        replaceAll (replaceAll template WORKSPACE_TOKEN "diamonds_project".toList)
          DIAMOND_TOKEN "ExampleDiamond".toList := by
  refine ⟨rfl, by decide, rfl, ?_⟩
  intro template
  have hw : workspace_name (load_env_file false envLines).2
      = "diamonds_project".toList := rfl
  have hd : diamond_name (load_env_file false envLines).2
      = "ExampleDiamond".toList := rfl
  rw [render, hw, hd]

/-! ### The mapping built by the line loop -/

theorem dict_get_foldl_skip {k : List Char} :
    ∀ (suf : List (List Char)) (d : EnvDict),
      (∀ l ∈ suf, (parsedKV l).map Prod.fst ≠ some k) →
      dict_get (suf.foldl processLine d) k = dict_get d k := by
  intro suf
  induction suf with
  | nil => intro d _; rfl
  | cons l suf' ih =>
    intro d hsuf
    rw [List.foldl_cons,
      ih (processLine d l) fun l' hl' => hsuf l' (List.mem_cons_of_mem l hl')]
    cases hpl : parsedKV l with
    | none => simp [processLine, hpl]
    | some kv =>
      obtain ⟨k', v'⟩ := kv
      have hk : k' ≠ k := by
        intro hkk
        exact hsuf l (List.mem_cons_self l suf') (by rw [hpl, hkk]; rfl)
      simp [processLine, hpl, dict_get_append_single, hk]

/-- C5: the loaded mapping binds, for each `KEY=VALUE` line, the trimmed
key to its trimmed value with one layer of surrounding matching quotes
stripped; when a key occurs on several lines the last line wins; and
blank lines and lines whose stripped form starts with `#` contribute
nothing to the mapping. -/
theorem load_env_mapping_spec :
    (∀ (pre suf : List (List Char)) (l k v : List Char),
      parsedKV l = some (k, v) →
      (∀ l' ∈ suf, (parsedKV l').map Prod.fst ≠ some k) →
      dict_get (parseEnvLines (pre ++ l :: suf)) k = some v) ∧
    (∀ (pre suf : List (List Char)) (l : List Char),
      strip l = [] ∨ (strip l).head? = some '#' →
      parseEnvLines (pre ++ l :: suf) = parseEnvLines (pre ++ suf)) := by
  constructor
  · intro pre suf l k v hl hsuf
    unfold parseEnvLines
    rw [List.foldl_append, List.foldl_cons, dict_get_foldl_skip suf _ hsuf]
    simp [processLine, hl, dict_get_append_single]
  · intro pre suf l hl
    have hnone : parsedKV l = none := by
      rcases hl with h | h
      · simp [parsedKV, h]
      · by_cases he : strip l = []
        · simp [parsedKV, he]
        · simp [parsedKV, he, h]
    unfold parseEnvLines
    rw [List.foldl_append, List.foldl_cons, List.foldl_append]
    simp [processLine, hnone]

/-- Witness for C5: `A` assigned twice with a comment in between; the last
assignment wins and the comment contributes nothing. -/
theorem load_env_mapping_spec_witness :
    dict_get (parseEnvLines
      (["A=1".toList] ++ "A= \"two\" ".toList :: ["B=3".toList]))
      "A".toList = some "two".toList ∧
    parseEnvLines (["A=1".toList] ++ "# note".toList :: ["B=3".toList]) =
      parseEnvLines (["A=1".toList] ++ ["B=3".toList]) :=
  ⟨load_env_mapping_spec.1 ["A=1".toList] ["B=3".toList]
      "A= \"two\" ".toList "A".toList "two".toList (by decide) (by decide),
   load_env_mapping_spec.2 ["A=1".toList] ["B=3".toList] "# note".toList
      (Or.inr (by decide))⟩

/-! ### Quote stripping -/

/-- C9: the quote stripping of the mapping loader removes exactly one
layer, and only when the first and last characters are the same quote
mark; a value that is a single quote character is stripped to the empty
string; any other value (in particular one with mismatched quotes) is
kept verbatim. -/
theorem stripQuotes_spec :
    stripQuotes ['"'] = [] ∧
    stripQuotes ['\''] = [] ∧
    (∀ xs : List Char, stripQuotes ('"' :: xs ++ ['"']) = xs) ∧
    (∀ xs : List Char, stripQuotes ('\'' :: xs ++ ['\'']) = xs) ∧
    (∀ v : List Char,
      ¬(v.head? = some '"' ∧ v.getLast? = some '"') →
      ¬(v.head? = some '\'' ∧ v.getLast? = some '\'') →
      stripQuotes v = v) := by
  refine ⟨by decide, by decide, ?_, ?_, ?_⟩
  · intro xs
    have h2 : ('"' :: xs ++ ['"']).getLast? = some '"' :=
      List.getLast?_concat _
    unfold stripQuotes
    rw [if_pos ⟨rfl, h2⟩]
    simp
  · intro xs
    have h2 : ('\'' :: xs ++ ['\'']).getLast? = some '\'' :=
      List.getLast?_concat _
    have h1 : ¬(('\'' :: xs ++ ['\'']).head? = some '"' ∧
        ('\'' :: xs ++ ['\'']).getLast? = some '"') := by
      rintro ⟨hh, -⟩
      simp at hh
    unfold stripQuotes
    rw [if_neg h1, if_pos ⟨rfl, h2⟩]
    simp
  · intro v h1 h2
    unfold stripQuotes
    rw [if_neg h1, if_neg h2]

/-- Witness for C9 at concrete quoted and mismatched values. -/
theorem stripQuotes_spec_witness :
    stripQuotes ('"' :: "ab".toList ++ ['"']) = "ab".toList ∧
    stripQuotes "\"ab'".toList = "\"ab'".toList :=
  ⟨stripQuotes_spec.2.2.1 "ab".toList,
   stripQuotes_spec.2.2.2.2 "\"ab'".toList (by decide) (by decide)⟩
